import Mathlib

/-!
# Shallow embedding of the `gen-hyre-csv` markdown question parser

This file embeds the core question-block parser of the repository
(`src/parse_md_questions.py`, plus the two answer patterns of
`src/parse_txt_questions.py` used by the answer-resolver claims) as
executable Lean definitions over `List Char`, and proves/refutes the
frozen specification claims against them.

Conventions of the embedding:
* a Python `str` is a `List Char` (`Str` below); inputs are ASCII, so
  the ASCII case/character classes of `Char` coincide with Python's;
* each regular expression of the source is compiled by hand into a
  deterministic matcher; every spot where the regex engine's greedy
  backtracking could produce a different match than naive maximal munch
  is noted and handled (trailing `\s*(?![\d.])`, optional groups);
* `re.sub`-style scanners that are not structurally recursive use a
  fuel argument; fuel `s.length` always suffices because every step of
  the scan consumes at least one character.
-/

/-- A Python string, as a list of characters. -/
abbrev Str := List Char

/-- Python `str.isspace` / regex `\s` for the ASCII inputs handled by the
parser: space, tab, newline, carriage return, vertical tab, form feed. -/
def isPySpace (c : Char) : Bool :=
  c == ' ' || c == '\t' || c == '\n' || c == '\r' ||
    c == Char.ofNat 11 || c == Char.ofNat 12

/-- Regex `\w` (ASCII): letters, digits and underscore. -/
def isWordChar (c : Char) : Bool :=
  c.isAlphanum || c == '_'

/-- Python `str.strip()`: remove whitespace from both ends. -/
def pyStrip (s : Str) : Str :=
  ((s.dropWhile isPySpace).reverse.dropWhile isPySpace).reverse

/-- Lower-case a string character-wise (`str.lower()`, ASCII). -/
def lowerStr (s : Str) : Str := s.map Char.toLower

/-- Python `str.split('\n')` (always returns at least one piece). -/
def splitOnNl : Str → List Str
  | [] => [[]]
  | c :: rest =>
    if c = '\n' then [] :: splitOnNl rest
    else
      match splitOnNl rest with
      | [] => [[c]]
      | l :: ls => (c :: l) :: ls

/-- Python `sep.join(pieces)`. -/
def joinWith (sep : Str) : List Str → Str
  | [] => []
  | [l] => l
  | l :: ls => l ++ sep ++ joinWith sep ls

/-- `'\n'.join(...)`. -/
def joinNl (ls : List Str) : Str := joinWith ['\n'] ls

/-- `' '.join(...)`. -/
def joinSp (ls : List Str) : Str := joinWith [' '] ls

theorem dropWhile_length_le (p : α → Bool) :
    ∀ l : List α, (l.dropWhile p).length ≤ l.length
  | [] => Nat.le_refl _
  | a :: l => by
    rw [List.dropWhile_cons]
    split
    · exact Nat.le_succ_of_le (dropWhile_length_le p l)
    · exact Nat.le_refl _

/-- Single-pass scan for `pySplitWs`: `cur` is the word being read, in
reverse (`none` while between words). -/
def pySplitWsScan : Option Str → Str → List Str
  | none, [] => []
  | some w, [] => [w.reverse]
  | none, c :: rest =>
    if isPySpace c then pySplitWsScan none rest
    else pySplitWsScan (some [c]) rest
  | some w, c :: rest =>
    if isPySpace c then w.reverse :: pySplitWsScan none rest
    else pySplitWsScan (some (c :: w)) rest

/-- Python `str.split()` with no argument: split on whitespace runs,
dropping empty pieces. -/
def pySplitWs (s : Str) : List Str :=
  pySplitWsScan none s

/-- Case-sensitive substring check, Python `pat in s`. -/
def containsSub (pat : Str) : Str → Bool
  | [] => pat.isEmpty
  | c :: rest => isLitAt pat (c :: rest) || containsSub pat rest
where
  /-- The literal `pat` occurs right at the start of `s`. -/
  isLitAt : Str → Str → Bool
    | [], _ => true
    | _ :: _, [] => false
    | p :: ps, c :: cs => p == c && isLitAt ps cs

/-- Case-insensitive literal match at the start: on success returns the
rest of the string after the literal. -/
def dropCI : Str → Str → Option Str
  | [], s => some s
  | _ :: _, [] => none
  | p :: ps, c :: cs => if p.toLower == c.toLower then dropCI ps cs else none

/-- Case-insensitive "starts with the literal" check. -/
def startsCI (pat s : Str) : Bool := (dropCI pat s).isSome

/-- Case-insensitive substring check (`pat in s.lower()` with `pat`
already lowercase, as the source uses). -/
def containsCI (pat : Str) : Str → Bool
  | [] => pat.isEmpty
  | c :: rest => startsCI pat (c :: rest) || containsCI pat rest

/-! ## Preprocessing (`parse_questions_from_file`, lines 20-32)

The source first unescapes `\.`, then replaces `<br>` variants by a
newline, then rewrites `explanation:` markers to `Solution:`. -/

/-- `content.replace('\\.', '.')` — Python `str.replace`, a left-to-right
non-overlapping scan (source line 22). -/
def replaceEscDot : Str → Str
  | [] => []
  | [c] => [c]
  | c1 :: c2 :: rest =>
    if c1 = '\\' ∧ c2 = '.' then '.' :: replaceEscDot rest
    else c1 :: replaceEscDot (c2 :: rest)

/-- Match of `<\s*br\s*/?>` (IGNORECASE) at the current position; on
success returns the rest after the match (source line 25).  All the
character classes involved are disjoint, so greedy matching needs no
backtracking. -/
def brMatch : Str → Option Str
  | '<' :: r =>
    match r.dropWhile isPySpace with
    | b :: r2 =>
      if b.toLower == 'b' then
        match r2 with
        | r3h :: r3t =>
          if r3h.toLower == 'r' then
            match r3t.dropWhile isPySpace with
            | '/' :: '>' :: r4 => some r4
            | '>' :: r4 => some r4
            | _ => none
          else none
        | [] => none
      else none
    | [] => none
  | _ => none

/-- `re.sub(r'<\s*br\s*/?>', '\n', content, flags=re.IGNORECASE)` with
fuel (every step consumes at least one character, so fuel `s.length`
suffices). -/
def brSubFuel : Nat → Str → Str
  | 0, s => s
  | _ + 1, [] => []
  | fuel + 1, c :: rest =>
    match brMatch (c :: rest) with
    | some r => '\n' :: brSubFuel fuel r
    | none => c :: brSubFuel fuel rest

def brSub (s : Str) : Str := brSubFuel s.length s

/-- Match of `(\*\*)?\bexplanation\b(\*\*)?\s*:\s*` (IGNORECASE) at the
current position (source lines 27-32).  `prev` is the character just
before the position (for the word boundary `\b`); returns the two
optional-group flags, the last character the match consumed, and the
rest after the match.  If the leading `(\*\*)?` is taken, the `\b` sees
`*` (a non-word character) and always holds; if the trailing `(\*\*)?`
is consumed but no colon follows, dropping it cannot succeed either
(`*` is not `:`), so greedy matching needs no backtracking. -/
def explMatchAt (prev : Option Char) (s : Str) :
    Option (Bool × Bool × Char × Str) :=
  let step1 : Bool × Str × Option Char :=
    match s with
    | '*' :: '*' :: r => (true, r, some '*')
    | _ => (false, s, prev)
  match step1 with
  | (g1, s1, prev1) =>
    if (match prev1 with | some p => isWordChar p | none => false) then none
    else
      match dropCI "explanation".toList s1 with
      | none => none
      | some r =>
        if (match r with | c :: _ => isWordChar c | [] => false) then none
        else
          let step2 : Bool × Str :=
            match r with
            | '*' :: '*' :: t => (true, t)
            | _ => (false, r)
          match step2 with
          | (g2, r2) =>
            match r2.dropWhile isPySpace with
            | ':' :: r3 =>
              let sp := r3.takeWhile isPySpace
              let last : Char :=
                match sp.reverse with
                | l :: _ => l
                | [] => ':'
              some (g1, g2, last, r3.dropWhile isPySpace)
            | _ => none

/-- `re.sub(r'(\*\*)?\bexplanation\b(\*\*)?\s*:\s*', r'\1Solution\2: ',
content, flags=re.IGNORECASE)`, with fuel; `prev` is the original
character before the scan position (for `\b`). -/
def explanationSubFuel : Nat → Option Char → Str → Str
  | 0, _, s => s
  | _ + 1, _, [] => []
  | fuel + 1, prev, c :: rest =>
    match explMatchAt prev (c :: rest) with
    | some (g1, g2, last, r) =>
      (if g1 then ['*', '*'] else []) ++ "Solution".toList ++
        (if g2 then ['*', '*'] else []) ++ [':', ' '] ++
        explanationSubFuel fuel (some last) r
    | none => c :: explanationSubFuel fuel (some c) rest

def explanationSub (s : Str) : Str := explanationSubFuel s.length none s

/-! ## The segmenter (`parse_questions_from_file`, lines 34-43)

Split pattern:
`(?m)^(?=\#{1,6}\s*\d+\.\s*|\*\*\d+\s*\.\s*\*\*\s*(?![\d.])|\d+\s*(?:\\.)?\.\s*(?![\d.]))` -/

/-- Matchability of a trailing `\s*(?![\d.])`.  The regex engine
backtracks over the greedy `\s*`: if at least one space is available,
stopping before the last space makes the lookahead see a space (not in
`[\d.]`) and succeed.  Hence the whole suffix fails exactly when the
very next character is a digit or a dot. -/
def tailNotDigitDot : Str → Bool
  | [] => true
  | c :: _ => !(c.isDigit || c == '.')

/-- Alternative `\#{1,6}\s*\d+\.\s*` of the split pattern.  A run of
more than six `#` cannot match (the 7th `#` is neither space nor
digit), and the trailing `\s*` always matches. -/
def qsAlt1 (s : Str) : Bool :=
  let k := (s.takeWhile (· == '#')).length
  let r1 := (s.dropWhile (· == '#')).dropWhile isPySpace
  decide (1 ≤ k) && decide (k ≤ 6) && !(r1.takeWhile Char.isDigit).isEmpty &&
    (match r1.dropWhile Char.isDigit with
     | '.' :: _ => true
     | _ => false)

/-- Alternative `\*\*\d+\s*\.\s*\*\*\s*(?![\d.])` of the split
pattern. -/
def qsAlt2 : Str → Bool
  | '*' :: '*' :: r =>
    !(r.takeWhile Char.isDigit).isEmpty &&
      (match (r.dropWhile Char.isDigit).dropWhile isPySpace with
       | '.' :: r3 =>
         (match r3.dropWhile isPySpace with
          | '*' :: '*' :: r4 => tailNotDigitDot r4
          | _ => false)
       | _ => false)
  | _ => false

/-- Alternative `\d+\s*(?:\\.)?\.\s*(?![\d.])` of the split pattern.
`(?:\\.)` is a literal backslash followed by any character except a
newline; taking a shorter run of `\d+` cannot help (the following
character would be a digit, matching none of `\s`, `\\`, `\.`). -/
def qsAlt3 (s : Str) : Bool :=
  !(s.takeWhile Char.isDigit).isEmpty &&
    (match (s.dropWhile Char.isDigit).dropWhile isPySpace with
     | '\\' :: x :: '.' :: r3 => !(x == '\n') && tailNotDigitDot r3
     | '.' :: r3 => tailNotDigitDot r3
     | _ => false)

/-- The segmenter's zero-width question-start test: does the split
pattern's lookahead match at this line start (the argument is the
document suffix beginning at the line start)? -/
def isQuestionStart (s : Str) : Bool := qsAlt1 s || qsAlt2 s || qsAlt3 s

/-- Scan for `re.split` with the zero-width `(?m)^(?=...)` pattern: cut
right after each newline whose following suffix passes
`isQuestionStart`.  `acc` holds the current part, reversed. -/
def splitBlocksAux : Str → Str → List Str
  | acc, [] => [acc.reverse]
  | acc, '\n' :: rest =>
    if isQuestionStart rest then
      ('\n' :: acc).reverse :: splitBlocksAux [] rest
    else splitBlocksAux ('\n' :: acc) rest
  | acc, c :: rest => splitBlocksAux (c :: acc) rest

/-- `re.split(pattern, content)` for the segmenter pattern: a match at
position 0 contributes a leading empty part, as in Python. -/
def splitBlocks (s : Str) : List Str :=
  if isQuestionStart s then [] :: splitBlocksAux [] s
  else splitBlocksAux [] s

/-! ## `remove_markdown_formatting` (source lines 101-111) and
`process_base64_images` (source lines 113-139) -/

/-- Lazy body of `\*\*(.*?)\*\*` after the opening `**`: the shortest
run of non-newline characters followed by `**`; returns (capture,
rest-after-closing). -/
def boldCloseSplit : Str → Option (Str × Str)
  | [] => none
  | '*' :: '*' :: r => some ([], r)
  | '\n' :: _ => none
  | c :: r =>
    match boldCloseSplit r with
    | some (cap, rest) => some (c :: cap, rest)
    | none => none

/-- Match of `\*\*(.*?)\*\*` at the current position. -/
def boldMatch : Str → Option (Str × Str)
  | '*' :: '*' :: r => boldCloseSplit r
  | _ => none

/-- Lazy body of `\*(.*?)\*` after the opening `*`. -/
def italCloseSplit : Str → Option (Str × Str)
  | [] => none
  | '*' :: r => some ([], r)
  | '\n' :: _ => none
  | c :: r =>
    match italCloseSplit r with
    | some (cap, rest) => some (c :: cap, rest)
    | none => none

/-- Match of `\*(.*?)\*` at the current position. -/
def italMatch : Str → Option (Str × Str)
  | '*' :: r => italCloseSplit r
  | _ => none

/-- Match of the link pattern `\[([^\]]+)\]\([^)]+\)` at the current
position; returns (text capture, rest).  The negated classes make
maximal munch exact: `[^\]]+` stops at the first `]`, `[^)]+` at the
first `)`. -/
def linkMatch : Str → Option (Str × Str)
  | '[' :: r =>
    let cap := r.takeWhile (· ≠ ']')
    if cap.isEmpty then none
    else
      match r.dropWhile (· ≠ ']') with
      | ']' :: '(' :: r2 =>
        if (r2.takeWhile (· ≠ ')')).isEmpty then none
        else
          match r2.dropWhile (· ≠ ')') with
          | ')' :: r3 => some (cap, r3)
          | _ => none
      | _ => none
  | _ => none

/-- Generic `re.sub(pat, replacement-by-capture, s)` scan for a matcher
returning (replacement, rest), with fuel. -/
def subScanFuel (m : Str → Option (Str × Str)) : Nat → Str → Str
  | 0, s => s
  | _ + 1, [] => []
  | fuel + 1, c :: rest =>
    match m (c :: rest) with
    | some (rep, r) => rep ++ subScanFuel m fuel r
    | none => c :: subScanFuel m fuel rest

/-- `re.sub(r'\*\*(.*?)\*\*', r'\1', text)`. -/
def boldSub (s : Str) : Str := subScanFuel boldMatch s.length s

/-- `re.sub(r'\*(.*?)\*', r'\1', text)`. -/
def italSub (s : Str) : Str := subScanFuel italMatch s.length s

/-- `re.sub(r'\[([^\]]+)\]\([^)]+\)', r'\1', text)`. -/
def linkSub (s : Str) : Str := subScanFuel linkMatch s.length s

/-- `remove_markdown_formatting` (source lines 101-111): bold, then
italic, then links.  The image-tag removal is commented out in the
source and therefore absent here. -/
def remove_markdown_formatting (s : Str) : Str := linkSub (italSub (boldSub s))

/-- Case-sensitive literal match at the start: on success returns the
rest of the string after the literal. -/
def dropLit : Str → Str → Option Str
  | [], s => some s
  | _ :: _, [] => none
  | p :: ps, c :: cs => if p == c then dropLit ps cs else none

/-- Match of `!\[([^\]]*)\]\((data:image/[^)]+)\)` at the current
position; returns the rest after the whole reference. -/
def b64Match : Str → Option Str
  | '!' :: '[' :: r =>
    match r.dropWhile (· ≠ ']') with
    | ']' :: '(' :: r2 =>
      match dropLit "data:image/".toList r2 with
      | some r3 =>
        if (r3.takeWhile (· ≠ ')')).isEmpty then none
        else
          match r3.dropWhile (· ≠ ')') with
          | ')' :: r4 => some r4
          | _ => none
      | none => none
    | _ => none
  | _ => none

/-- Removal scan for `process_base64_images`, with fuel. -/
def b64RemoveFuel : Nat → Str → Str
  | 0, s => s
  | _ + 1, [] => []
  | fuel + 1, c :: rest =>
    match b64Match (c :: rest) with
    | some r => b64RemoveFuel fuel r
    | none => c :: b64RemoveFuel fuel rest

/-- `process_base64_images` (source lines 113-139).  The function body
defines an upload-and-substitute replacement (`replace_base64_with_s3`)
but its final statement is `re.sub(pattern, "", text)`: every inline
base64 image reference is deleted and the upload collaborator is never
invoked. -/
def process_base64_images (s : Str) : Str := b64RemoveFuel s.length s

/-- The inner closure `replace_base64_with_s3` of the source (lines
122-135), which the final `re.sub` call does not use.  The upload
collaborator `upload_base64_image_to_s3` lives outside `src/`
(`base_img_s3`), so it is passed here as a function argument: `some
url` models a successful upload, `none` a raised exception. -/
def replace_base64_with_s3 (upload : Str → Option Str)
    (alt base64Url : Str) : Str :=
  match upload base64Url with
  | some signedUrl => '!' :: '[' :: alt ++ ']' :: '(' :: signedUrl ++ [')']
  | none => []

/-! ## `parse_single_question` (source lines 141-313): per-line tests -/

/-- `[A-E]` without IGNORECASE (the option-line patterns, source lines
171 and 195-199). -/
def isOptLetter (c : Char) : Bool :=
  c == 'A' || c == 'B' || c == 'C' || c == 'D' || c == 'E'

/-- `[A-E]` with IGNORECASE (the answer patterns, source lines
254-266). -/
def isAnsLetter (c : Char) : Bool :=
  c == 'A' || c == 'B' || c == 'C' || c == 'D' || c == 'E' ||
    c == 'a' || c == 'b' || c == 'c' || c == 'd' || c == 'e'

/-- Tail `\s*:?\s*$` of the Options-header patterns: the rest must be
spaces, at most one colon, spaces. -/
def optionsHeaderTail (r : Str) : Bool :=
  match r.dropWhile isPySpace with
  | [] => true
  | ':' :: r2 => (r2.dropWhile isPySpace).isEmpty
  | _ => false

/-- `re.match(r'^\*\*Options:\*\*$', line)` — case-sensitive, anchored
at both ends, so equality with the literal. -/
def isOptionsHeaderV1 (line : Str) : Bool := line == "**Options:**".toList

/-- `re.match(r'^\*\*\s*Options\s*:?\s*$', line, re.IGNORECASE)`. -/
def isOptionsHeaderV2 : Str → Bool
  | '*' :: '*' :: r =>
    match dropCI "options".toList (r.dropWhile isPySpace) with
    | some r2 => optionsHeaderTail r2
    | none => false
  | _ => false

/-- `re.match(r'^Options\s*:?\s*$', line, re.IGNORECASE)`. -/
def isOptionsHeaderV3 (line : Str) : Bool :=
  match dropCI "options".toList line with
  | some r => optionsHeaderTail r
  | none => false

/-- `re.match(r'^\#{1,6}\s*Options\s*:?\s*$', line, re.IGNORECASE)`. -/
def isOptionsHeaderV4 (line : Str) : Bool :=
  let k := (line.takeWhile (· == '#')).length
  decide (1 ≤ k) && decide (k ≤ 6) &&
    (match dropCI "options".toList
        ((line.dropWhile (· == '#')).dropWhile isPySpace) with
     | some r => optionsHeaderTail r
     | none => false)

/-- The four Options-header tests of the question loop (source lines
164-167). -/
def isOptionsHeader (line : Str) : Bool :=
  isOptionsHeaderV1 line || isOptionsHeaderV2 line ||
    isOptionsHeaderV3 line || isOptionsHeaderV4 line

/-- `re.match(r'^[A-E]\.', line)`. -/
def startsOptDot : Str → Bool
  | c :: '.' :: _ => isOptLetter c
  | _ => false

/-- `re.match(r'^\*\*[A-E]\.', line)`. -/
def startsBoldOptDot : Str → Bool
  | '*' :: '*' :: c :: '.' :: _ => isOptLetter c
  | _ => false

/-- `re.match(r'^[A-E]\s*=', line)`. -/
def startsOptEq : Str → Bool
  | c :: r =>
    isOptLetter c &&
      (match r.dropWhile isPySpace with
       | '=' :: _ => true
       | _ => false)
  | [] => false

/-- `\s*:` — spaces then a colon. -/
def colonAfterSpaces (r : Str) : Bool :=
  match r.dropWhile isPySpace with
  | ':' :: _ => true
  | _ => false

/-- `^\*\*\s*Answer` (IGNORECASE). -/
def startsBoldAnswer : Str → Bool
  | '*' :: '*' :: r => startsCI "answer".toList (r.dropWhile isPySpace)
  | _ => false

/-- `^__Answer\s*:` (IGNORECASE). -/
def startsUnderAnswer : Str → Bool
  | '_' :: '_' :: r =>
    match dropCI "answer".toList r with
    | some r2 => colonAfterSpaces r2
    | none => false
  | _ => false

/-- `^Answer\s*:` (IGNORECASE). -/
def startsAnswerColon (line : Str) : Bool :=
  match dropCI "answer".toList line with
  | some r => colonAfterSpaces r
  | none => false

/-- `^\*\*\s*Solution` (IGNORECASE). -/
def startsBoldSolution : Str → Bool
  | '*' :: '*' :: r => startsCI "solution".toList (r.dropWhile isPySpace)
  | _ => false

/-- `^Solution\s*:` (IGNORECASE). -/
def startsSolutionColon (line : Str) : Bool :=
  match dropCI "solution".toList line with
  | some r => colonAfterSpaces r
  | none => false

/-- `^\#\s*\*\*\s*Answer|^\#\s*\*\*\s*Solution` (IGNORECASE). -/
def startsHashAnswerOrSolution : Str → Bool
  | '#' :: r =>
    (match r.dropWhile isPySpace with
     | '*' :: '*' :: r2 =>
       startsCI "answer".toList (r2.dropWhile isPySpace) ||
         startsCI "solution".toList (r2.dropWhile isPySpace)
     | _ => false)
  | _ => false

/-- The options loop's break test (source lines 189-191). -/
def isAnswerOrSolutionMarker (line : Str) : Bool :=
  (startsBoldAnswer line || startsUnderAnswer line || startsAnswerColon line) ||
    (startsBoldSolution line || startsSolutionColon line) ||
    startsHashAnswerOrSolution line

/-- `\*\*\s*Answer` (IGNORECASE) at the current position. -/
def boldAnswerAt : Str → Bool
  | '*' :: '*' :: r => startsCI "answer".toList (r.dropWhile isPySpace)
  | _ => false

/-- `re.search(r'\*\*\s*Answer', line, re.IGNORECASE)`. -/
def searchBoldAnswer : Str → Bool
  | [] => false
  | c :: rest => boldAnswerAt (c :: rest) || searchBoldAnswer rest

/-- `'**Answer' in line or re.search(r'\*\*\s*Answer', line, re.IGNORECASE)`
(source lines 215 and 230). -/
def hasInlineAnswer (line : Str) : Bool :=
  containsSub "**Answer".toList line || searchBoldAnswer line

/-- One position of `re.split(r'\s*\*\*\s*Answer|\s*\*\*$', raw, ...)`:
does either alternative match starting here?  (`$` can also match just
before a final newline.) -/
def starMarkerAt (r : Str) : Bool :=
  match r.dropWhile isPySpace with
  | '*' :: '*' :: r2 =>
    startsCI "answer".toList (r2.dropWhile isPySpace) ||
      r2.isEmpty || r2 == ['\n']
  | _ => false

/-- `option_parts[0]` of the `re.split` above (source lines 210 and
223): the prefix before the leftmost match. -/
def splitStarMarkerFirst : Str → Str
  | [] => []
  | c :: rest =>
    if starMarkerAt (c :: rest) then [] else c :: splitStarMarkerFirst rest

/-- `\s*(.+)` — greedy spaces, then at least one non-newline character
captured to the end of the line.  If everything after the spaces is
empty or a newline, the engine backtracks one space and captures it. -/
def spCapture (r : Str) : Option Str :=
  let r1 := r.dropWhile isPySpace
  let cap := r1.takeWhile (· ≠ '\n')
  if cap.isEmpty then
    match (r.takeWhile isPySpace).reverse with
    | [] => none
    | sp :: _ => some [sp]
  else some cap

/-- `re.match(r'^\*\*([A-E])\.\s*\*?\s*(.+)', line)` (source line 195):
returns (letter, captured text).  On a failed capture after consuming
the optional `*` the engine backtracks: first over the inner `\s*`,
then over `\*?` itself. -/
def optMatchBold : Str → Option (Char × Str)
  | '*' :: '*' :: c :: '.' :: r =>
    if isOptLetter c then
      let r1 := r.dropWhile isPySpace
      match r1 with
      | '*' :: t =>
        let t2 := t.dropWhile isPySpace
        let cap := t2.takeWhile (· ≠ '\n')
        if !cap.isEmpty then some (c, cap)
        else
          (match (t.takeWhile isPySpace).reverse with
           | sp :: _ => some (c, [sp])
           | [] =>
             -- drop the `\*?`: capture starts at the `*` itself
             some (c, r1.takeWhile (· ≠ '\n')))
      | _ => (spCapture r).map (fun cap => (c, cap))
    else none
  | _ => none

/-- `re.match(r'^([A-E])\.\s*(.+)', line)` (source line 197). -/
def optMatchDot : Str → Option (Char × Str)
  | c :: '.' :: r =>
    if isOptLetter c then (spCapture r).map (fun cap => (c, cap)) else none
  | _ => none

/-- `re.match(r'^([A-E])\s*=\s*(.+)', line)` (source line 199). -/
def optMatchEq : Str → Option (Char × Str)
  | c :: r =>
    if isOptLetter c then
      match r.dropWhile isPySpace with
      | '=' :: r2 => (spCapture r2).map (fun cap => (c, cap))
      | _ => none
    else none
  | [] => none

/-! ## `parse_single_question`: number-prefix removal and the two loops -/

/-- Consumption of a trailing `\s*(?![\d.])` inside `re.sub` (where the
consumed span is deleted): greedily eat the spaces; if the lookahead
then sees a digit or dot, backtrack one space (the lookahead now sees a
space and passes); with no space to give back, the whole match fails. -/
def consumeTrailSpaces (s : Str) : Option Str :=
  let r := s.dropWhile isPySpace
  match r with
  | [] => some []
  | c :: _ =>
    if c.isDigit || c == '.' then
      match (s.takeWhile isPySpace).reverse with
      | [] => none
      | last :: _ => some (last :: r)
    else some r

/-- First alternative `^\s*\*\*\d+\s*\.\s*\*\*\s*(?![\d.])` of the
number-prefix pattern (source line 147); returns the rest after the
removed span. -/
def stripNumAltA (s : Str) : Option Str :=
  match s.dropWhile isPySpace with
  | '*' :: '*' :: r =>
    if (r.takeWhile Char.isDigit).isEmpty then none
    else
      match (r.dropWhile Char.isDigit).dropWhile isPySpace with
      | '.' :: r3 =>
        (match r3.dropWhile isPySpace with
         | '*' :: '*' :: r4 => consumeTrailSpaces r4
         | _ => none)
      | _ => none
  | _ => none

/-- Second alternative `^\s*\d+\s*(?:\\.)?\.\s*(?![\d.])` (source line
147). -/
def stripNumAltB (s : Str) : Option Str :=
  let r0 := s.dropWhile isPySpace
  if (r0.takeWhile Char.isDigit).isEmpty then none
  else
    match (r0.dropWhile Char.isDigit).dropWhile isPySpace with
    | '\\' :: x :: '.' :: r3 =>
      if x == '\n' then none else consumeTrailSpaces r3
    | '.' :: r3 => consumeTrailSpaces r3
    | _ => none

/-- `re.sub(prefix_pattern, '', content, count=1)` — both alternatives
are anchored, so the single substitution happens at the start or not at
all, trying the bold alternative first (source line 147). -/
def stripNumberMarker (s : Str) : Str :=
  match stripNumAltA s with
  | some r => r
  | none =>
    match stripNumAltB s with
    | some r => r
    | none => s

/-- The question-text loop (source lines 159-175): accumulate stripped
non-empty lines until an Options header (consumed) or a line that looks
like an option (left in place).  Returns (question lines, remaining
lines). -/
def questionLoop : List Str → (List Str × List Str)
  | [] => ([], [])
  | l :: ls =>
    let line := pyStrip l
    if isOptionsHeader line then ([], ls)
    else if startsOptDot line || startsBoldOptDot line || startsOptEq line then
      ([], l :: ls)
    else
      let p := questionLoop ls
      (if line.isEmpty then p.1 else line :: p.1, p.2)

/-- `options[-1] += ' ' + extra` (source line 244). -/
def appendToLast : List Str → Str → List Str
  | [], _ => []
  | [o], extra => [o ++ ' ' :: extra]
  | o :: os, extra => o :: appendToLast os extra

/-- Cleaning applied to a dot- or equals-option capture (source lines
210-212 and 223-225): split off an inline `**Answer`/trailing `**`,
drop base64 images, strip markdown, strip whitespace. -/
def cleanOptionCapture (raw : Str) : Str :=
  pyStrip (remove_markdown_formatting (process_base64_images
    (splitStarMarkerFirst raw)))

/-- The options loop (source lines 184-247).  Returns the collected
options and the remaining (unstripped) lines, which the source joins
into `remaining_content`. -/
def optionsLoop : List Str → List Str → (List Str × List Str)
  | opts, [] => (opts, [])
  | opts, l :: ls =>
    let line := pyStrip l
    if isAnswerOrSolutionMarker line then (opts, l :: ls)
    else
      match optMatchBold line with
      | some (_, cap) =>
        optionsLoop
          (opts ++ [pyStrip (remove_markdown_formatting
            (process_base64_images cap))]) ls
      | none =>
        match optMatchDot line with
        | some (_, cap) =>
          let newOpts := opts ++ [cleanOptionCapture cap]
          if hasInlineAnswer line then (newOpts, l :: ls)
          else optionsLoop newOpts ls
        | none =>
          match optMatchEq line with
          | some (c, cap) =>
            let newOpts := opts ++ [c :: ' ' :: '=' :: ' ' ::
              cleanOptionCapture cap]
            if hasInlineAnswer line then (newOpts, l :: ls)
            else optionsLoop newOpts ls
          | none =>
            if line.isEmpty then optionsLoop opts ls
            else if startsSolutionColon line then optionsLoop opts ls
            else if !opts.isEmpty &&
                !(match line with | '*' :: '*' :: _ => true | _ => false) &&
                !containsCI "answer".toList line &&
                !startsOptDot line && !startsOptEq line then
              optionsLoop
                (appendToLast opts (remove_markdown_formatting
                  (process_base64_images line))) ls
            else optionsLoop opts ls

/-! ## Answer resolution (source lines 252-271) -/

/-- `\s*:\s*` then a letter of `[A-E]` (IGNORECASE): returns the letter
and the rest after it. -/
def ansColonLetter (r : Str) : Option (Char × Str) :=
  match r.dropWhile isPySpace with
  | ':' :: r2 =>
    (match r2.dropWhile isPySpace with
     | c :: r3 => if isAnsLetter c then some (c, r3) else none
     | [] => none)
  | _ => none

/-- `__Answer\s*:\s*([A-E])\.` (IGNORECASE) at the current position. -/
def matchAns1 : Str → Option Char
  | '_' :: '_' :: r =>
    match dropCI "answer".toList r with
    | some r2 =>
      (match ansColonLetter r2 with
       | some (c, '.' :: _) => some c
       | _ => none)
    | none => none
  | _ => none

/-- `\*\*\s*Answer\s*:\s*\*?\s*([A-E])\.` (IGNORECASE) at the current
position.  The optional `\*?` is deterministic: a `*` is not a letter,
so when present it must be consumed. -/
def matchAns2 : Str → Option Char
  | '*' :: '*' :: r =>
    match dropCI "answer".toList (r.dropWhile isPySpace) with
    | some r2 =>
      (match r2.dropWhile isPySpace with
       | ':' :: r3 =>
         (match (match r3.dropWhile isPySpace with
                 | '*' :: t => t.dropWhile isPySpace
                 | r4 => r4) with
          | c :: '.' :: _ => if isAnsLetter c then some c else none
          | _ => none)
       | _ => none)
    | none => none
  | _ => none

/-- `\*\s*Answer\s*:\s*([A-E])\.` (IGNORECASE) at the current
position. -/
def matchAns3 : Str → Option Char
  | '*' :: r =>
    match dropCI "answer".toList (r.dropWhile isPySpace) with
    | some r2 =>
      (match ansColonLetter r2 with
       | some (c, '.' :: _) => some c
       | _ => none)
    | none => none
  | _ => none

/-- `Answer\s*:\s*([A-E])\.` (IGNORECASE) at the current position. -/
def matchAns4 (s : Str) : Option Char :=
  match dropCI "answer".toList s with
  | some r =>
    (match ansColonLetter r with
     | some (c, '.' :: _) => some c
     | _ => none)
  | none => none

/-- `Answer\s*:\s*([A-E])\s*=` (IGNORECASE) at the current position. -/
def matchAns5 (s : Str) : Option Char :=
  match dropCI "answer".toList s with
  | some r =>
    (match ansColonLetter r with
     | some (c, r3) =>
       (match r3.dropWhile isPySpace with
        | '=' :: _ => some c
        | _ => none)
     | _ => none)
  | none => none

/-- `re.search`: try the anchored matcher at every position, leftmost
first. -/
def searchPat (m : Str → Option α) : Str → Option α
  | [] => m []
  | c :: rest =>
    match m (c :: rest) with
    | some a => some a
    | none => searchPat m rest

/-- The answer-resolution cascade (source lines 254-266): five
`re.search` attempts in order; returns the captured letter. -/
def findAnswerLetter (s : Str) : Option Char :=
  match searchPat matchAns1 s with
  | some c => some c
  | none =>
    match searchPat matchAns2 s with
    | some c => some c
    | none =>
      match searchPat matchAns3 s with
      | some c => some c
      | none =>
        match searchPat matchAns4 s with
        | some c => some c
        | none => searchPat matchAns5 s

/-! ## Explanation extraction (source lines 273-300) -/

/-- `\*\*\s*Solution\s*:?\s*\*?\s*(.*)` (DOTALL, IGNORECASE) at the
current position: returns the capture, i.e. everything after the
consumed marker (the final `(.*)` with DOTALL is greedy to the end of
the string, so success is guaranteed once `Solution` has matched; the
optional `:`/`*` are deterministic). -/
def matchSolBold : Str → Option Str
  | '*' :: '*' :: r =>
    match dropCI "solution".toList (r.dropWhile isPySpace) with
    | some r2 =>
      let r3 := r2.dropWhile isPySpace
      let r4 := match r3 with
        | ':' :: t => t.dropWhile isPySpace
        | _ => r3
      let r5 := match r4 with
        | '*' :: t => t.dropWhile isPySpace
        | _ => r4
      some r5
    | none => none
  | _ => none

/-- `Solution\s*:?\s*(.*)` (DOTALL, IGNORECASE) at the current
position. -/
def matchSolPlain (s : Str) : Option Str :=
  match dropCI "solution".toList s with
  | some r =>
    let r1 := r.dropWhile isPySpace
    let r2 := match r1 with
      | ':' :: t => t.dropWhile isPySpace
      | _ => r1
    some r2
  | none => none

/-- `remaining_content.lower().find('answer')` (source line 287):
returns `remaining_content[pos:]` for the first case-insensitive
occurrence. -/
def findAnswerSub : Str → Option Str
  | [] => none
  | c :: rest =>
    if startsCI "answer".toList (c :: rest) then some (c :: rest)
    else findAnswerSub rest

/-- The explanation-extraction cascade (source lines 277-289). -/
def extractExplanation (remaining : Str) : Str :=
  match searchPat matchSolBold remaining with
  | some cap => pyStrip cap
  | none =>
    match searchPat matchSolPlain remaining with
    | some cap => pyStrip cap
    | none =>
      match findAnswerSub remaining with
      | some t => pyStrip t
      | none => []

/-- The cleaned explanation lines (source line 299):
`[' '.join(line.split()) for line in lines if line.strip()]`. -/
def cleanedLines (e : Str) : List Str :=
  ((splitOnNl e).filter (fun l => !(pyStrip l).isEmpty)).map
    (fun l => joinSp (pySplitWs l))

/-- `'\\n'.join(...)` — the two-character break token backslash-`n`
(source line 300). -/
def joinBreakTok (ls : List Str) : Str := joinWith ['\\', 'n'] ls

/-- Explanation post-processing (source lines 291-300): drop base64
images, strip markdown, then re-join the cleaned lines with the
`\n` break token. -/
def cleanExplanation (e : Str) : Str :=
  joinBreakTok (cleanedLines (remove_markdown_formatting
    (process_base64_images e)))

/-! ## The record and `parse_single_question` -/

/-- The dictionary returned by `parse_single_question` (source lines
302-313). -/
structure QuestionRecord where
  question_type : Str
  question : Str
  option_count : Nat
  options : List Str
  answer : Nat
  category : Str
  difficulty : Str
  score : Nat
  tags : Str
  explanation : Str
deriving DecidableEq

/-- The residual content handed to answer/explanation extraction:
`'\n'.join(lines[i:])` after the options loop (source line 250). -/
def residualOf (content : Str) : Str :=
  joinNl (optionsLoop []
    (questionLoop (splitOnNl (stripNumberMarker content))).2).2

/-- `parse_single_question` (source lines 141-313).  It always returns
a (non-empty, hence truthy) dict, whatever the block contains. -/
def parse_single_question (content : Str) : QuestionRecord :=
  let lines := splitOnNl (stripNumberMarker content)
  let qp := questionLoop lines
  let question_text := remove_markdown_formatting
    (process_base64_images (joinSp qp.1))
  let op := optionsLoop [] qp.2
  let remaining := joinNl op.2
  let answer_index : Nat :=
    match findAnswerLetter remaining with
    | some c => c.toUpper.toNat - 'A'.toNat
    | none => 0
  { question_type := "objective".toList
    question := pyStrip question_text
    option_count := op.1.length
    options := op.1
    answer := answer_index + 1
    category := "Aptitude".toList
    difficulty := "medium".toList
    score := 5
    tags := "Aptitude,Numbers".toList
    explanation := cleanExplanation (extractExplanation remaining) }

/-! ## The section-header filter and `parse_questions_from_file`
(source lines 45-99) -/

/-- The topic keywords of the header filter (source lines 68-70). -/
def header_keywords : List Str :=
  ["aptitude", "reasoning", "verbal", "quantitative", "technical",
   "pseudocode", "fundamental", "computer", "network", "security",
   "cloud", "mock", "test", "placement", "logical", "analytical"].map
    String.toList

/-- Python `str.isupper()` (ASCII): at least one cased character and no
lower-case one. -/
def pyIsUpper (s : Str) : Bool :=
  s.any Char.isAlpha && s.all (fun c => !c.isAlpha || c.isUpper)

/-- `re.match(r'^(\d+\.|\*\*\d+\.|#{1,6}\s*\d+\.)', first_line)`
(source line 76). -/
def startsWithQuestionNum (s : Str) : Bool :=
  digitsThenDot s ||
    (match s with
     | '*' :: '*' :: r => digitsThenDot r
     | _ => false) ||
    (let k := (s.takeWhile (· == '#')).length
     decide (1 ≤ k) && decide (k ≤ 6) &&
       digitsThenDot ((s.dropWhile (· == '#')).dropWhile isPySpace))
where
  /-- `\d+\.` at the start. -/
  digitsThenDot (s : Str) : Bool :=
    !(s.takeWhile Char.isDigit).isEmpty &&
      (match s.dropWhile Char.isDigit with
       | '.' :: _ => true
       | _ => false)

/-- The section-header filter (source lines 50-93): `true` when the
(already stripped) part is skipped as a non-question header.  The
source compares the uppercase count against `len * 0.7` in floating
point; `10 * count > 7 * len` models that comparison exactly except on
floating-point rounding boundaries, which no claim exercises. -/
def isHeaderSkip (part : Str) : Bool :=
  let first_line :=
    match splitOnNl part with
    | [] => []
    | l :: _ => pyStrip l
  let is_all_caps := pyIsUpper first_line ||
    decide (10 * (first_line.filter Char.isUpper).length >
      7 * first_line.length)
  let has_question_mark := first_line.any (· == '?')
  let digit_count := (first_line.filter Char.isDigit).length
  let word_count := (pySplitWs first_line).length
  let is_header_keyword :=
    header_keywords.any (fun k => containsSub k (lowerStr first_line))
  let is_continuation :=
    !startsWithQuestionNum first_line &&
      decide (30 < first_line.length) && !has_question_mark &&
      (match first_line with
       | c :: _ => c.isLower
       | [] => false)
  decide (first_line.length < 100) && !has_question_mark &&
    decide (digit_count < 3) &&
    (is_all_caps || is_header_keyword || is_continuation) &&
    decide (word_count ≤ 15)

/-- The preprocessing pipeline of `parse_questions_from_file` (source
lines 20-32). -/
def preprocess (content : Str) : Str :=
  explanationSub (brSub (replaceEscDot content))

/-- The stripped, non-empty, non-header parts the block loop hands to
`parse_single_question` (source lines 45-93). -/
def keptParts (content : Str) : List Str :=
  ((splitBlocks (preprocess content)).map pyStrip).filter
    (fun p => !p.isEmpty && !isHeaderSkip p)

/-- `parse_questions_from_file` minus the file I/O (source lines
13-99): the record list built from a document's text.  The source
guard `if question:` always holds — `parse_single_question` returns a
non-empty dict — so every kept part contributes exactly one record. -/
def parse_questions (content : Str) : List QuestionRecord :=
  (keptParts content).map parse_single_question

/-! ## The txt-variant answer patterns (`src/parse_txt_questions.py`,
lines 115-131), used by the resolver-fallback claim -/

/-- `[A-D]` with IGNORECASE. -/
def isTxtLetter (c : Char) : Bool :=
  c == 'A' || c == 'B' || c == 'C' || c == 'D' ||
    c == 'a' || c == 'b' || c == 'c' || c == 'd'

/-- Shared head `Answer\s*:\s*([A-D])` (IGNORECASE) of both txt answer
patterns, at the current position: returns the letter and the rest
after it. -/
def txtAnswerColonLetter (s : Str) : Option (Char × Str) :=
  match dropCI "answer".toList s with
  | some r =>
    (match r.dropWhile isPySpace with
     | ':' :: r2 =>
       (match r2.dropWhile isPySpace with
        | c :: r3 => if isTxtLetter c then some (c, r3) else none
        | [] => none)
     | _ => none)
  | none => none

/-- `Answer\s*:\s*([A-D])(?:\.\s*\S+)?` (IGNORECASE) at the current
position (txt source line 117).  The trailing optional group can
neither make the match fail nor change group 1, so only the shared
head decides. -/
def txtMatchPrimary (s : Str) : Option Char :=
  (txtAnswerColonLetter s).map (fun p => p.1)

/-- `Answer\s*:\s*[A-D]\.\s*(\w+)` (IGNORECASE) at the current position
(txt source line 124): the fallback pattern whose capture is then
substring-matched against the options. -/
def txtMatchFallback (s : Str) : Option Str :=
  match txtAnswerColonLetter s with
  | some (_, '.' :: r2) =>
    let cap := (r2.dropWhile isPySpace).takeWhile isWordChar
    if cap.isEmpty then none else some cap
  | _ => none

/-! ## Definitions modelled from the spec (for claims the code
deviates from) -/

/-- Modelled from the spec: §4.4 step 3 — the answer-text fallback the
spec prescribes when no letter notation matches ("fall back to text
equality against each option (case-insensitive), then partial substring
match, in that priority order"); 1-based.  No such fallback exists in
`src/parse_md_questions.py`. -/
def specAnswerTextFallback (declared : Str) (options : List Str) : Option Nat :=
  match options.findIdx? (fun o => lowerStr o == lowerStr declared) with
  | some i => some (i + 1)
  | none =>
    match options.findIdx?
        (fun o => containsSub (lowerStr declared) (lowerStr o)) with
    | some i => some (i + 1)
    | none => none

/-! ## Break-token round trip (for the explanation claims) -/

/-- The serialized explanation field for a raw explanation string `e`
(source lines 298-300): cleaned lines joined with the `\n` break
token. -/
def serializeExpl (e : Str) : Str := joinBreakTok (cleanedLines e)

/-- Python `field.split('\\n')` — split on the two-character break
token. -/
def splitBreakTok : Str → List Str
  | [] => [[]]
  | [c] => [[c]]
  | c1 :: c2 :: rest =>
    if c1 = '\\' ∧ c2 = 'n' then [] :: splitBreakTok rest
    else
      match splitBreakTok (c2 :: rest) with
      | [] => [[c1]]
      | l :: ls => (c1 :: l) :: ls

/-- The round trip of the spec's §8 property: serialize the explanation,
split the emitted field on the break token, rejoin with raw
newlines. -/
def roundTripExpl (e : Str) : Str := joinNl (splitBreakTok (serializeExpl e))

/-! ## Supporting lemmas -/

theorem searchPat_some_imp {α : Type} {m : Str → Option α} {P : α → Prop}
    (hm : ∀ t a, m t = some a → P a) :
    ∀ s a, searchPat m s = some a → P a := by
  intro s
  induction s with
  | nil => intro a h; exact hm [] a h
  | cons c rest ih =>
    intro a h
    simp only [searchPat] at h
    cases hm' : m (c :: rest) with
    | some b =>
      rw [hm'] at h
      exact hm _ _ (hm'.trans (Option.some.injEq b a ▸ congrArg some
        (Option.some.inj h)))
    | none => rw [hm'] at h; exact ih a h

theorem ansColonLetter_letter {r : Str} {c : Char} {r3 : Str}
    (h : ansColonLetter r = some (c, r3)) : isAnsLetter c = true := by
  unfold ansColonLetter at h
  split at h
  · split at h
    · split at h
      · cases h; assumption
      · exact absurd h (by simp)
    · exact absurd h (by simp)
  · exact absurd h (by simp)

theorem matchAns1_letter : ∀ t c, matchAns1 t = some c → isAnsLetter c = true := by
  intro t c h
  unfold matchAns1 at h
  split at h
  · split at h
    · split at h
      · cases h
        exact ansColonLetter_letter (by assumption)
      · exact absurd h (by simp)
    · exact absurd h (by simp)
  · exact absurd h (by simp)

theorem matchAns2_letter : ∀ t c, matchAns2 t = some c → isAnsLetter c = true := by
  intro t c h
  unfold matchAns2 at h
  split at h
  · split at h
    · split at h
      · split at h
        · split at h
          · cases h; assumption
          · exact absurd h (by simp)
        · exact absurd h (by simp)
      · exact absurd h (by simp)
    · exact absurd h (by simp)
  · exact absurd h (by simp)

theorem matchAns3_letter : ∀ t c, matchAns3 t = some c → isAnsLetter c = true := by
  intro t c h
  unfold matchAns3 at h
  split at h
  · split at h
    · split at h
      · cases h
        exact ansColonLetter_letter (by assumption)
      · exact absurd h (by simp)
    · exact absurd h (by simp)
  · exact absurd h (by simp)

theorem matchAns4_letter : ∀ t c, matchAns4 t = some c → isAnsLetter c = true := by
  intro t c h
  unfold matchAns4 at h
  split at h
  · split at h
    · cases h
      exact ansColonLetter_letter (by assumption)
    · exact absurd h (by simp)
  · exact absurd h (by simp)

theorem matchAns5_letter : ∀ t c, matchAns5 t = some c → isAnsLetter c = true := by
  intro t c h
  unfold matchAns5 at h
  split at h
  · split at h
    · split at h
      · cases h
        exact ansColonLetter_letter (by assumption)
      · exact absurd h (by simp)
    · exact absurd h (by simp)
  · exact absurd h (by simp)

/-- Any letter the answer cascade returns belongs to `[A-E]`
(case-insensitively). -/
theorem findAnswerLetter_letter {s : Str} {c : Char}
    (h : findAnswerLetter s = some c) : isAnsLetter c = true := by
  unfold findAnswerLetter at h
  split at h
  · cases h; exact searchPat_some_imp matchAns1_letter s _ (by assumption)
  · split at h
    · cases h; exact searchPat_some_imp matchAns2_letter s _ (by assumption)
    · split at h
      · cases h; exact searchPat_some_imp matchAns3_letter s _ (by assumption)
      · split at h
        · cases h
          exact searchPat_some_imp matchAns4_letter s _ (by assumption)
        · exact searchPat_some_imp matchAns5_letter s _ h

/-- The 1-based index computed from a matched answer letter lies in
`[1, 5]`. -/
theorem ansLetter_index_le_five {L : Char} (h : isAnsLetter L = true) :
    L.toUpper.toNat - 'A'.toNat + 1 ≤ 5 := by
  simp only [isAnsLetter, Bool.or_eq_true, beq_iff_eq] at h
  rcases h with ((((((((h | h) | h) | h) | h) | h) | h) | h) | h) | h <;>
    subst h <;> decide

/-- The `answer` field of every record is the letter index (or the 0
sentinel) plus one. -/
theorem parse_answer_eq (c : Str) :
    (parse_single_question c).answer =
      (match findAnswerLetter (residualOf c) with
       | some ch => ch.toUpper.toNat - 'A'.toNat
       | none => 0) + 1 := rfl

/-! ## Claim theorems -/

/-- C1 (counterexample): the document `"1. What is love?"` consists of a
single question block from which the parser extracts zero options, yet
the output record sequence contains a record with `option_count = 0` —
the block is not excluded and nothing resembling a
`MalformedQuestionBlock` diagnostic exists. -/
theorem c1_zero_option_counterexample :
    (parse_questions "1. What is love?".toList).map
        QuestionRecord.option_count = [0] := by
  decide

/-- C1 (amended): every block that survives the segmenter's header
filter contributes its record to the output, whether or not any option
was extracted — `parse_single_question` always returns a non-empty
dict, so the source's `if question:` guard never drops anything and
the stream continues past zero-option blocks. -/
theorem c1_blocks_always_emitted (doc p : Str) (h : p ∈ keptParts doc) :
    parse_single_question p ∈ parse_questions doc :=
  List.mem_map_of_mem parse_single_question h

/-- C1 witness: in a two-block document whose first block has zero
options, both blocks are kept and the zero-option record is emitted. -/
theorem c1_blocks_always_emitted_witness :
    "1. What is love?".toList ∈
        keptParts
          "1. What is love?\n2. Real question?\nA. yes\nB. no\nAnswer: A.".toList ∧
      parse_single_question "1. What is love?".toList ∈
        parse_questions
          "1. What is love?\n2. Real question?\nA. yes\nB. no\nAnswer: A.".toList :=
  ⟨by decide, c1_blocks_always_emitted _ _ (by decide)⟩

/-- C2 (counterexample): in the block `"1. Pick one?\nA. 1\nB. 2\n
Answer: E."` the answer notation matches (letter `E`), the record has
`option_count = 2`, yet the emitted answer index is 5 — the claimed
invariant `answer_index <= option_count` fails because the code never
validates the resolved index. -/
theorem c2_answer_out_of_range_counterexample :
    findAnswerLetter
        (residualOf "1. Pick one?\nA. 1\nB. 2\nAnswer: E.".toList) = some 'E' ∧
      (parse_single_question "1. Pick one?\nA. 1\nB. 2\nAnswer: E.".toList).option_count = 2 ∧
      (parse_single_question "1. Pick one?\nA. 1\nB. 2\nAnswer: E.".toList).answer = 5 ∧
      ¬(parse_single_question "1. Pick one?\nA. 1\nB. 2\nAnswer: E.".toList).answer ≤
        (parse_single_question "1. Pick one?\nA. 1\nB. 2\nAnswer: E.".toList).option_count := by
  decide

/-- C2 (amended): for every block, `option_count` equals the length of
the options list; and whenever answer resolution succeeds the emitted
1-based index lies in `[1, 5]` (it is the matched letter's position in
`A..E`) — but it is never validated against `option_count` and may
exceed it. -/
theorem c2_option_count_and_answer_bounds (c : Str) (L : Char)
    (h : findAnswerLetter (residualOf c) = some L) :
    (parse_single_question c).option_count =
        (parse_single_question c).options.length ∧
      1 ≤ (parse_single_question c).answer ∧
      (parse_single_question c).answer ≤ 5 := by
  refine ⟨rfl, ?_, ?_⟩
  · rw [parse_answer_eq c]
    exact Nat.le_add_left 1 _
  · rw [parse_answer_eq c, h]
    exact ansLetter_index_le_five (findAnswerLetter_letter h)

/-- C2 witness: the bounds theorem applied to a concrete block whose
answer notation resolves (letter `B`). -/
theorem c2_option_count_and_answer_bounds_witness :
    findAnswerLetter
        (residualOf "1. What is 2+2?\nA. 3\nB. 4\n**Answer: B.**".toList) =
        some 'B' ∧
      (parse_single_question "1. What is 2+2?\nA. 3\nB. 4\n**Answer: B.**".toList).option_count =
        (parse_single_question "1. What is 2+2?\nA. 3\nB. 4\n**Answer: B.**".toList).options.length ∧
      1 ≤ (parse_single_question "1. What is 2+2?\nA. 3\nB. 4\n**Answer: B.**".toList).answer ∧
      (parse_single_question "1. What is 2+2?\nA. 3\nB. 4\n**Answer: B.**".toList).answer ≤ 5 :=
  ⟨by decide,
    c2_option_count_and_answer_bounds
      "1. What is 2+2?\nA. 3\nB. 4\n**Answer: B.**".toList 'B' (by decide)⟩

/-- C3: evaluating the parser on the spec's §8 test block.  Question,
options, option count and answer index come out exactly as the spec
expects, but the explanation is `"* Basic addition."`: the
solution-marker regex `\*\*\s*Solution\s*:?\s*\*?\s*(.*)` consumes only
one `*` of the closing bold marker of `"**Solution:**"`, and the
leftover lone asterisk survives `remove_markdown_formatting`. -/
theorem c3_failing_block_record :
    parse_questions
        "1. What is 2+2?\nA. 3\nB. 4\n**Answer: B.**\n**Solution:** Basic addition.".toList =
      [{ question_type := "objective".toList
         question := "What is 2+2?".toList
         option_count := 2
         options := ["3".toList, "4".toList]
         answer := 2
         category := "Aptitude".toList
         difficulty := "medium".toList
         score := 5
         tags := "Aptitude,Numbers".toList
         explanation := "* Basic addition.".toList }] := by
  decide

/-- C4 (counterexample): for the block `"1. Pick one?\nA. 1\nB. 2\n
Solution: because."` no answer notation matches, yet the emitted record
carries answer index 1 — exactly the index a resolved answer `A`
produces (compare the second block) — and no flag of any kind exists in
the record.  The claim's "null/sentinel answer index" is false: the
sentinel 0 is incremented into the valid-looking index 1. -/
theorem c4_sentinel_counterexample :
    findAnswerLetter
        (residualOf "1. Pick one?\nA. 1\nB. 2\nSolution: because.".toList) = none ∧
      (parse_single_question "1. Pick one?\nA. 1\nB. 2\nSolution: because.".toList).answer = 1 ∧
      findAnswerLetter
        (residualOf "1. Pick one?\nA. 1\nB. 2\nAnswer: A.\nSolution: because.".toList) =
        some 'A' ∧
      (parse_single_question "1. Pick one?\nA. 1\nB. 2\nAnswer: A.\nSolution: because.".toList).answer = 1 := by
  decide

/-- C4 (amended): whenever no answer notation matches the residual
text, the record is emitted with answer index 1 (the internal sentinel
0 plus the unconditional `+ 1`), indistinguishable from a resolved
answer `A`; the code produces no `AmbiguousAnswerNotation` (or any
other) diagnostic. -/
theorem c4_unmatched_answer_defaults_to_one (c : Str)
    (h : findAnswerLetter (residualOf c) = none) :
    (parse_single_question c).answer = 1 := by
  rw [parse_answer_eq c, h]

/-- C4 witness: the default-to-one theorem applied to a concrete block
with no matching answer notation. -/
theorem c4_unmatched_answer_defaults_to_one_witness :
    findAnswerLetter
        (residualOf "1. Pick one?\nA. 1\nB. 2\nSolution: sure.".toList) = none ∧
      (parse_single_question "1. Pick one?\nA. 1\nB. 2\nSolution: sure.".toList).answer = 1 :=
  ⟨by decide,
    c4_unmatched_answer_defaults_to_one
      "1. Pick one?\nA. 1\nB. 2\nSolution: sure.".toList (by decide)⟩

/-- If a matcher's success at any position implies another matcher's
success at that position, the same holds for `re.search` over the
whole string. -/
theorem searchPat_mono {α β : Type} {m1 : Str → Option α}
    {m2 : Str → Option β} (h12 : ∀ t, (m2 t).isSome → (m1 t).isSome) :
    ∀ s, (searchPat m2 s).isSome → (searchPat m1 s).isSome := by
  intro s
  induction s with
  | nil =>
    intro h
    simpa only [searchPat] using h12 [] (by simpa only [searchPat] using h)
  | cons c rest ih =>
    intro h
    simp only [searchPat] at h ⊢
    cases hm1 : m1 (c :: rest) with
    | some a => simp
    | none =>
      simp only [hm1]
      cases hm2 : m2 (c :: rest) with
      | some b =>
        have := h12 (c :: rest) (by simp [hm2])
        rw [hm1] at this
        simp at this
      | none => rw [hm2] at h; exact ih h

/-- At any single position, a match of the txt fallback pattern implies
a match of the txt primary pattern (the fallback only adds requirements
after the shared `Answer\s*:\s*[A-D]` head). -/
theorem txtFallback_imp_primary (t : Str) :
    (txtMatchFallback t).isSome → (txtMatchPrimary t).isSome := by
  unfold txtMatchFallback txtMatchPrimary
  cases h : txtAnswerColonLetter t with
  | none => simp
  | some p => simp

/-- C5 (counterexample): in the block `"1. Pick one?\nA. Paris\n
B. London\nAnswer: london"` no letter-prefixed and no equals-sign
notation matches, and the declared answer text `"london"` is
case-insensitively equal to option 2 — the fallback the spec describes
(modelled by `specAnswerTextFallback`) would resolve index 2 — yet the
parser emits answer index 1 (the incremented sentinel): no text
fallback exists in the markdown resolver. -/
theorem c5_no_text_fallback_counterexample :
    findAnswerLetter
        (residualOf "1. Pick one?\nA. Paris\nB. London\nAnswer: london".toList) =
        none ∧
      specAnswerTextFallback "london".toList
        (parse_single_question
          "1. Pick one?\nA. Paris\nB. London\nAnswer: london".toList).options =
        some 2 ∧
      (parse_single_question
        "1. Pick one?\nA. Paris\nB. London\nAnswer: london".toList).answer = 1 ∧
      (1 : Nat) ≠ 2 := by
  decide

/-- C5 (amended): the only text fallback in the repository — the txt
variant's substring loop — is dead code: whenever its trigger pattern
`Answer\s*:\s*[A-D]\.\s*(\w+)` matches somewhere in the residual text,
the primary letter pattern `Answer\s*:\s*([A-D])(?:\.\s*\S+)?` has
already matched, so the substring branch is never taken; and that
branch is a substring test only, with no prior exact-equality step. -/
theorem c5_txt_fallback_unreachable (s : Str) (w : Str)
    (h : searchPat txtMatchFallback s = some w) :
    (searchPat txtMatchPrimary s).isSome :=
  searchPat_mono txtFallback_imp_primary s (by simp [h])

/-- C5 witness: the unreachability theorem applied to the residual
`"Answer: C. disturbed"`, on which the fallback pattern matches with
capture `"disturbed"`. -/
theorem c5_txt_fallback_unreachable_witness :
    searchPat txtMatchFallback "Answer: C. disturbed".toList =
        some "disturbed".toList ∧
      (searchPat txtMatchPrimary "Answer: C. disturbed".toList).isSome :=
  ⟨by decide,
    c5_txt_fallback_unreachable "Answer: C. disturbed".toList
      "disturbed".toList (by decide)⟩

/-- C6: the media rewriter deletes every inline base64 image reference
outright — `process_base64_images` returns `re.sub(pattern, "", text)`
— even though the upload collaborator (modelled as the function
argument of the source's unused inner closure `replace_base64_with_s3`)
would succeed and produce a substituted reference.  The code never
invokes the collaborator, contradicting its own docstring ("upload
them to S3, and replace with signed URIs"). -/
theorem c6_image_removed_despite_upload :
    process_base64_images
        "before ![img](data:image/png;base64,AAAA) after".toList =
        "before  after".toList ∧
      replace_base64_with_s3
        (fun _ => some "https://bucket.s3/img.png".toList)
        "img".toList "data:image/png;base64,AAAA".toList =
        "![img](https://bucket.s3/img.png)".toList := by
  decide

/-- C7 (counterexample): for the explanation `"First.\n\nSecond."` —
two paragraphs separated by a blank line — the break-token round trip
returns `"First.\nSecond."`: the serializer drops blank lines, so the
original paragraph boundaries are not reproduced exactly. -/
theorem c7_round_trip_counterexample :
    roundTripExpl "First.\n\nSecond.".toList = "First.\nSecond.".toList ∧
      roundTripExpl "First.\n\nSecond.".toList ≠ "First.\n\nSecond.".toList := by
  decide

/-- `splitOnNl` never returns an empty list. -/
theorem splitOnNl_ne_nil : ∀ e : Str, splitOnNl e ≠ [] := by
  intro e
  cases e with
  | nil => simp [splitOnNl]
  | cons c rest =>
    simp only [splitOnNl]
    split
    · simp
    · split <;> simp

/-- Rejoining the newline split with newlines is the identity. -/
theorem joinNl_splitOnNl : ∀ e : Str, joinNl (splitOnNl e) = e := by
  intro e
  induction e with
  | nil => rfl
  | cons c rest ih =>
    simp only [splitOnNl]
    by_cases hc : c = '\n'
    · subst hc
      simp only [if_pos rfl]
      have hne := splitOnNl_ne_nil rest
      cases hsp : splitOnNl rest with
      | nil => exact absurd hsp hne
      | cons l ls =>
        rw [hsp] at ih
        simpa [joinNl, joinWith] using ih
    · rw [if_neg hc]
      have hne := splitOnNl_ne_nil rest
      cases hsp : splitOnNl rest with
      | nil => exact absurd hsp hne
      | cons l ls =>
        rw [hsp] at ih
        cases ls with
        | nil => simpa [joinNl, joinWith] using ih
        | cons m ms => simpa [joinNl, joinWith] using ih

/-- A string without a backslash splits on the break token into itself
alone. -/
theorem splitBreakTok_no_backslash :
    ∀ p : Str, '\\' ∉ p → splitBreakTok p = [p] := by
  intro p
  induction p with
  | nil => intro _; rfl
  | cons c rest ih =>
    intro hp
    have hc : c ≠ '\\' := fun h => hp (h ▸ List.mem_cons_self c rest)
    have hrest : '\\' ∉ rest := fun h => hp (List.mem_cons_of_mem c h)
    cases rest with
    | nil => rfl
    | cons c2 rest2 =>
      simp only [splitBreakTok]
      rw [if_neg (by exact fun h => hc h.1)]
      rw [ih hrest]

/-- Splitting a backslash-free prefix followed by the break token cuts
exactly at the token. -/
theorem splitBreakTok_append_tok :
    ∀ p t : Str, '\\' ∉ p →
      splitBreakTok (p ++ '\\' :: 'n' :: t) = p :: splitBreakTok t := by
  intro p
  induction p with
  | nil =>
    intro t _
    simp [splitBreakTok]
  | cons c rest ih =>
    intro t hp
    have hc : c ≠ '\\' := fun h => hp (h ▸ List.mem_cons_self c rest)
    have hrest : '\\' ∉ rest := fun h => hp (List.mem_cons_of_mem c h)
    cases rest with
    | nil => simp [splitBreakTok, hc]
    | cons c2 rest2 =>
      simp only [List.cons_append, splitBreakTok]
      rw [if_neg (fun h => hc h.1)]
      have ih2 := ih t hrest
      simp only [List.cons_append] at ih2
      simp only [List.append_eq]
      rw [ih2]

/-- Splitting the break-token join of backslash-free pieces recovers
the pieces. -/
theorem splitBreakTok_joinBreakTok :
    ∀ ps : List Str, ps ≠ [] → (∀ p ∈ ps, '\\' ∉ p) →
      splitBreakTok (joinBreakTok ps) = ps := by
  intro ps
  induction ps with
  | nil => intro h _; exact absurd rfl h
  | cons p qs ih =>
    intro _ hp
    cases qs with
    | nil =>
      exact splitBreakTok_no_backslash p (hp p (List.mem_cons_self p []))
    | cons q rest =>
      have hjoin : joinBreakTok (p :: q :: rest) =
          p ++ '\\' :: 'n' :: joinBreakTok (q :: rest) := by
        simp [joinBreakTok, joinWith]
      rw [hjoin,
        splitBreakTok_append_tok p _ (hp p (List.mem_cons_self p _)),
        ih (by simp) (fun x hx => hp x (List.mem_cons_of_mem p hx))]

/-- If every line is kept by the blank-line filter and fixed by
whitespace normalization, the cleaning pass is the identity. -/
theorem cleanedPass_of_normalized :
    ∀ ls : List Str,
      (∀ l ∈ ls, !(pyStrip l).isEmpty ∧ joinSp (pySplitWs l) = l) →
      (ls.filter (fun l => !(pyStrip l).isEmpty)).map
        (fun l => joinSp (pySplitWs l)) = ls := by
  intro ls
  induction ls with
  | nil => intro _; rfl
  | cons l rest ih =>
    intro h
    have hl := h l (List.mem_cons_self l rest)
    have hrest := fun x hx => h x (List.mem_cons_of_mem l hx)
    simp only [List.filter_cons, hl.1, if_pos, List.map_cons, hl.2, ih hrest]

/-- C7 (amended): the break-token round trip is the identity on every
explanation the cleaning pass leaves untouched — each line non-blank,
already whitespace-normalized, and free of backslashes (a backslash-free
line cannot collide with the `\n` break token).  This is a sufficient
condition; in general the serializer drops blank lines and collapses
intra-line whitespace, so the original paragraph boundaries are not
always reproduced (see the counterexample). -/
theorem c7_round_trip_normalized (e : Str)
    (h : ∀ l ∈ splitOnNl e,
      !(pyStrip l).isEmpty ∧ joinSp (pySplitWs l) = l ∧ '\\' ∉ l) :
    roundTripExpl e = e := by
  unfold roundTripExpl serializeExpl cleanedLines
  rw [cleanedPass_of_normalized (splitOnNl e)
      (fun l hl => ⟨(h l hl).1, (h l hl).2.1⟩),
    splitBreakTok_joinBreakTok (splitOnNl e) (splitOnNl_ne_nil e)
      (fun l hl => (h l hl).2.2)]
  exact joinNl_splitOnNl e

/-- C7 witness: the round-trip theorem applied to the two-line
normalized explanation `"First.\nSecond."`. -/
theorem c7_round_trip_normalized_witness :
    (∀ l ∈ splitOnNl "First.\nSecond.".toList,
        !(pyStrip l).isEmpty ∧ joinSp (pySplitWs l) = l ∧ '\\' ∉ l) ∧
      roundTripExpl "First.\nSecond.".toList = "First.\nSecond.".toList :=
  ⟨by decide, c7_round_trip_normalized _ (by decide)⟩

theorem takeWhile_append_of_all {α : Type} {p : α → Bool} :
    ∀ l r : List α, (∀ a ∈ l, p a) →
      List.takeWhile p (l ++ r) = l ++ List.takeWhile p r := by
  intro l
  induction l with
  | nil => intro r _; rfl
  | cons a l ih =>
    intro r h
    have ha := h a (List.mem_cons_self a l)
    simp only [List.cons_append, List.takeWhile_cons_of_pos ha]
    rw [ih r (fun x hx => h x (List.mem_cons_of_mem a hx))]

theorem dropWhile_append_of_all {α : Type} {p : α → Bool} :
    ∀ l r : List α, (∀ a ∈ l, p a) →
      List.dropWhile p (l ++ r) = List.dropWhile p r := by
  intro l
  induction l with
  | nil => intro r _; rfl
  | cons a l ih =>
    intro r h
    have ha := h a (List.mem_cons_self a l)
    simp only [List.cons_append, List.dropWhile_cons_of_pos ha]
    exact ih r (fun x hx => h x (List.mem_cons_of_mem a hx))

/-- C8: a line that begins with digits, a dot, and then immediately
another digit or dot (a decimal number such as `1.1236`) never passes
the segmenter's question-start lookahead — the negative lookahead
`(?![\d.])` of the split pattern rejects it — and hence the scan over a
document continues accumulating instead of cutting a new block there. -/
theorem c8_decimal_not_question_start (ds : Str) (c : Char) (rest : Str)
    (acc : Str) (hds : ds ≠ []) (hdig : ∀ d ∈ ds, d.isDigit)
    (hc : c.isDigit ∨ c = '.') :
    isQuestionStart (ds ++ '.' :: c :: rest) = false ∧
      splitBlocksAux acc ('\n' :: ds ++ '.' :: c :: rest) =
        splitBlocksAux ('\n' :: acc) (ds ++ '.' :: c :: rest) := by
  have halt1 : qsAlt1 (ds ++ '.' :: c :: rest) = false := by
    cases ds with
    | nil => exact absurd rfl hds
    | cons d ds' =>
      have hd := hdig d (List.mem_cons_self d ds')
      have hdh : (d == '#') = false := by
        cases hdd : d == '#' with
        | false => rfl
        | true =>
          rw [show d = '#' from by exact beq_iff_eq.mp hdd] at hd
          simp at hd
      simp [qsAlt1, List.takeWhile_cons_of_neg, hdh]
  have halt2 : qsAlt2 (ds ++ '.' :: c :: rest) = false := by
    cases ds with
    | nil => exact absurd rfl hds
    | cons d ds' =>
      have hd := hdig d (List.mem_cons_self d ds')
      have hds2 : d ≠ '*' := by
        intro h
        rw [h] at hd
        simp at hd
      cases ds' with
      | nil => simp only [List.cons_append, List.nil_append]
               unfold qsAlt2
               split
               · rename_i heq
                 exact absurd (List.cons.inj heq).1 hds2
               · rfl
      | cons d2 ds'' => simp only [List.cons_append]
                        unfold qsAlt2
                        split
                        · rename_i heq
                          exact absurd (List.cons.inj heq).1 hds2
                        · rfl
  have halt3 : qsAlt3 (ds ++ '.' :: c :: rest) = false := by
    have htake : List.takeWhile Char.isDigit (ds ++ '.' :: c :: rest) = ds := by
      rw [takeWhile_append_of_all ds _ hdig]
      simp [List.takeWhile_cons_of_neg]
    have hdrop : List.dropWhile Char.isDigit (ds ++ '.' :: c :: rest) =
        '.' :: c :: rest := by
      rw [dropWhile_append_of_all ds _ hdig]
      simp [List.dropWhile_cons_of_neg]
    unfold qsAlt3
    rw [htake, hdrop]
    have hsp : List.dropWhile isPySpace ('.' :: c :: rest) = '.' :: c :: rest :=
      List.dropWhile_cons_of_neg (by simp [isPySpace])
    rw [hsp]
    have htail : tailNotDigitDot (c :: rest) = false := by
      unfold tailNotDigitDot
      rcases hc with h | h
      · simp [h]
      · simp [h]
    simp [htail]
  have hqs : isQuestionStart (ds ++ '.' :: c :: rest) = false := by
    simp [isQuestionStart, halt1, halt2, halt3]
  refine ⟨hqs, ?_⟩
  simp only [List.cons_append]
  rw [show ('\n' :: (ds ++ '.' :: c :: rest)) =
      '\n' :: (ds ++ '.' :: c :: rest) from rfl]
  simp [splitBlocksAux, hqs]

/-- C8 witness: the line `"1.1236 is a decimal"` opens no block. -/
theorem c8_decimal_not_question_start_witness :
    isQuestionStart "1.1236 is a decimal".toList = false ∧
      splitBlocksAux [] ('\n' :: "1.1236 is a decimal".toList) =
        splitBlocksAux ['\n'] "1.1236 is a decimal".toList :=
  c8_decimal_not_question_start ['1'] '1' "236 is a decimal".toList []
    (by decide) (by decide) (by decide)

/-- A character other than a backslash passes through the unescape scan
untouched. -/
theorem replaceEscDot_cons_ne (c : Char) (hc : c ≠ '\\') :
    ∀ R : Str, replaceEscDot (c :: R) = c :: replaceEscDot R := by
  intro R
  cases R with
  | nil => rfl
  | cons d R' =>
    simp only [replaceEscDot]
    rw [if_neg (fun h => hc h.1)]

/-- Unfolding equation for the two-character case of the unescape
scan. -/
theorem replaceEscDotConsTwo (c1 c2 : Char) (rest : Str) :
    replaceEscDot (c1 :: c2 :: rest) =
      if c1 = '\\' ∧ c2 = '.' then '.' :: replaceEscDot rest
      else c1 :: replaceEscDot (c2 :: rest) := rfl

/-- Bounded-length version of the unescape congruence: replacing the
escaped dot of `6\.` by a plain dot does not change the unescape of
the whole document, whatever lies before (`A`) or after (`R`) — the
`6` blocks any `\.` occurrence from straddling the boundary. -/
theorem replaceEscDot_escaped_six_aux :
    ∀ n (A R : Str), A.length ≤ n →
      replaceEscDot (A ++ '6' :: '\\' :: '.' :: R) =
        replaceEscDot (A ++ '6' :: '.' :: R) := by
  intro n
  induction n with
  | zero =>
    intro A R hlen
    have hA : A = [] := List.eq_nil_of_length_eq_zero (Nat.le_zero.mp hlen)
    subst hA
    simp only [List.nil_append]
    rw [replaceEscDotConsTwo '6' '\\', replaceEscDotConsTwo '6' '.',
      if_neg (fun h => absurd h.1 (by decide)),
      if_neg (fun h => absurd h.1 (by decide)),
      replaceEscDotConsTwo '\\' '.', if_pos ⟨rfl, rfl⟩,
      replaceEscDot_cons_ne '.' (by decide)]
  | succ n ih =>
    intro A R hlen
    cases A with
    | nil => exact ih [] R (Nat.zero_le n)
    | cons a A2 =>
      cases A2 with
      | nil =>
        simp only [List.cons_append, List.nil_append]
        rw [replaceEscDotConsTwo a '6', replaceEscDotConsTwo a '6',
          if_neg (fun h => absurd h.2 (by decide)),
          if_neg (fun h => absurd h.2 (by decide))]
        have h0 := ih [] R (Nat.zero_le n)
        simp only [List.nil_append] at h0
        rw [h0]
      | cons b A3 =>
        have hlen3 : A3.length ≤ n := by
          simp only [List.length_cons] at hlen; omega
        have hlen2 : (b :: A3).length ≤ n := by
          simp only [List.length_cons] at hlen ⊢; omega
        simp only [List.cons_append]
        rw [replaceEscDotConsTwo a b, replaceEscDotConsTwo a b]
        by_cases hb : a = '\\' ∧ b = '.'
        · rw [if_pos hb, if_pos hb, ih A3 R hlen3]
        · rw [if_neg hb, if_neg hb]
          have h2 := ih (b :: A3) R hlen2
          simp only [List.cons_append] at h2
          rw [h2]

/-- C9: a question-number delimiter written with an escaped dot parses
identically to the plain form — the parser's first preprocessing step
unescapes `\.` to `.`, after which the two documents are equal
character for character, so the whole pipeline (segmentation, header
filtering, block parsing) produces the same records. -/
theorem c9_escaped_dot_parse_equal (A B : Str) :
    parse_questions (A ++ "6\\. The sequence went on".toList ++ B) =
      parse_questions (A ++ "6. The sequence went on".toList ++ B) := by
  have e1 : A ++ "6\\. The sequence went on".toList ++ B =
      A ++ '6' :: '\\' :: '.' :: (" The sequence went on".toList ++ B) := by
    simp
  have e2 : A ++ "6. The sequence went on".toList ++ B =
      A ++ '6' :: '.' :: (" The sequence went on".toList ++ B) := by
    simp
  unfold parse_questions keptParts preprocess
  rw [e1, e2, replaceEscDot_escaped_six_aux A.length A
    (" The sequence went on".toList ++ B) (Nat.le_refl _)]

theorem takeWhile_eq_self_of_all {α : Type} {p : α → Bool} (l : List α)
    (h : ∀ a ∈ l, p a) : List.takeWhile p l = l := by
  have := takeWhile_append_of_all (p := p) l [] h
  simpa using this

theorem mem_of_mem_dropWhile {α : Type} {p : α → Bool} :
    ∀ {l : List α} {a : α}, a ∈ l.dropWhile p → a ∈ l := by
  intro l
  induction l with
  | nil => intro a h; simp [List.dropWhile] at h
  | cons b l ih =>
    intro a h
    rw [List.dropWhile_cons] at h
    split at h
    · exact List.mem_cons_of_mem b (ih h)
    · exact h

theorem dropWhile_eq_self_head {α : Type} {p : α → Bool} {c : α} {l : List α}
    (h : List.dropWhile p (c :: l) = c :: l) : ¬ p c := by
  intro hp
  rw [List.dropWhile_cons_of_pos hp] at h
  have := congrArg List.length h
  have hle := dropWhile_length_le p l
  simp only [List.length_cons] at this
  omega

/-- A string equal to its own `strip()` loses nothing to the leading
`dropWhile`. -/
theorem strip_eq_self_dropWhile {t : Str} (hstrip : pyStrip t = t) :
    t.dropWhile isPySpace = t := by
  have h1 : (pyStrip t).length ≤ (t.dropWhile isPySpace).length := by
    unfold pyStrip
    have := dropWhile_length_le isPySpace (t.dropWhile isPySpace).reverse
    simpa using this
  have h2 : (t.dropWhile isPySpace).length ≤ t.length :=
    dropWhile_length_le _ _
  have h3 : (t.takeWhile isPySpace).length = 0 := by
    have h4 := congrArg List.length
      (List.takeWhile_append_dropWhile (p := isPySpace) (l := t))
    rw [hstrip] at h1
    simp only [List.length_append] at h4
    omega
  have h6 : t.takeWhile isPySpace = [] := List.eq_nil_of_length_eq_zero h3
  have h7 := List.takeWhile_append_dropWhile (p := isPySpace) (l := t)
  rw [h6, List.nil_append] at h7
  exact h7

/-- A string equal to its own `strip()` loses nothing to the trailing
`dropWhile` either (stated on the reverse). -/
theorem strip_eq_self_dropWhile_reverse {t : Str} (hstrip : pyStrip t = t) :
    t.reverse.dropWhile isPySpace = t.reverse := by
  have hfront := strip_eq_self_dropWhile hstrip
  have : pyStrip t = (t.reverse.dropWhile isPySpace).reverse := by
    unfold pyStrip
    rw [hfront]
  rw [hstrip] at this
  have := congrArg List.reverse this
  simpa using this.symm

/-- `strip()` of a string starting with a non-space literal and ending
in an already-stripped non-empty `t` is the identity. -/
theorem pyStrip_concat {x : Char} {X t : Str} (hx : ¬ isPySpace x = true)
    (hne : t ≠ []) (hstrip : pyStrip t = t) :
    pyStrip (x :: X ++ t) = x :: X ++ t := by
  have hrev := strip_eq_self_dropWhile_reverse hstrip
  have hrevne : t.reverse ≠ [] := by simpa using hne
  unfold pyStrip
  rw [List.cons_append, List.dropWhile_cons_of_neg hx]
  rw [show (x :: (X ++ t)).reverse = t.reverse ++ (X.reverse ++ [x]) by
    simp]
  cases hrt : t.reverse with
  | nil => exact absurd hrt hrevne
  | cons r rr =>
    have hr : ¬ isPySpace r = true := by
      have := dropWhile_eq_self_head (c := r) (l := rr) (by rw [← hrt, hrev, hrt])
      exact this
    rw [List.cons_append, List.dropWhile_cons_of_neg hr]
    rw [show (r :: (rr ++ (X.reverse ++ [x]))) = t.reverse ++ (X.reverse ++ [x]) by
      rw [hrt]; simp]
    simp

theorem boldMatch_none {c : Char} {rest : Str} (hc : c ≠ '*') :
    boldMatch (c :: rest) = none := by
  unfold boldMatch
  split
  · rename_i heq
    exact absurd (List.cons.inj heq).1 hc
  · rfl

theorem italMatch_none {c : Char} {rest : Str} (hc : c ≠ '*') :
    italMatch (c :: rest) = none := by
  unfold italMatch
  split
  · rename_i heq
    exact absurd (List.cons.inj heq).1 hc
  · rfl

theorem linkMatch_none {c : Char} {rest : Str} (hc : c ≠ '[') :
    linkMatch (c :: rest) = none := by
  unfold linkMatch
  split
  · rename_i heq
    exact absurd (List.cons.inj heq).1 hc
  · rfl

theorem b64Match_none {c : Char} {rest : Str} (hc : c ≠ '!') :
    b64Match (c :: rest) = none := by
  unfold b64Match
  split
  · rename_i heq
    exact absurd (List.cons.inj heq).1 hc
  · rfl

/-- A replacement scan whose matcher needs a particular head character
is the identity on strings not containing it. -/
theorem subScanFuel_id (m : Str → Option (Str × Str)) (c0 : Char)
    (hm : ∀ c rest, c ≠ c0 → m (c :: rest) = none) :
    ∀ n (s : Str), c0 ∉ s → subScanFuel m n s = s := by
  intro n
  induction n with
  | zero => intro s _; rfl
  | succ n ih =>
    intro s hs
    cases s with
    | nil => rfl
    | cons c rest =>
      have hc : c ≠ c0 := fun h => hs (h ▸ List.mem_cons_self c rest)
      have hrest : c0 ∉ rest := fun h => hs (List.mem_cons_of_mem c h)
      simp only [subScanFuel, hm c rest hc, ih rest hrest]

/-- `remove_markdown_formatting` is the identity on strings without
asterisks or opening brackets. -/
theorem remove_markdown_formatting_id {s : Str} (hstar : '*' ∉ s)
    (hbr : '[' ∉ s) : remove_markdown_formatting s = s := by
  unfold remove_markdown_formatting boldSub italSub linkSub
  rw [subScanFuel_id boldMatch '*' (fun c rest hc => boldMatch_none hc) _ s
      hstar,
    subScanFuel_id italMatch '*' (fun c rest hc => italMatch_none hc) _ s
      hstar,
    subScanFuel_id linkMatch '[' (fun c rest hc => linkMatch_none hc) _ s hbr]

/-- `process_base64_images` is the identity on strings without an
exclamation mark (the image pattern starts `![`). -/
theorem process_base64_images_id {s : Str} (hbang : '!' ∉ s) :
    process_base64_images s = s := by
  unfold process_base64_images
  suffices h : ∀ n (u : Str), '!' ∉ u → b64RemoveFuel n u = u from
    h s.length s hbang
  intro n
  induction n with
  | zero => intro u _; rfl
  | succ n ih =>
    intro u hu
    cases u with
    | nil => rfl
    | cons c rest =>
      have hc : c ≠ '!' := fun h => hu (h ▸ List.mem_cons_self c rest)
      have hrest : '!' ∉ rest := fun h => hu (List.mem_cons_of_mem c h)
      simp only [b64RemoveFuel, b64Match_none hc, ih rest hrest]

theorem starMarkerAt_false {s : Str} (hstar : '*' ∉ s) :
    starMarkerAt s = false := by
  unfold starMarkerAt
  split
  · rename_i heq
    have : '*' ∈ s := by
      have : '*' ∈ s.dropWhile isPySpace := by
        rw [heq]; exact List.mem_cons_self _ _
      exact mem_of_mem_dropWhile this
    exact absurd this hstar
  · rfl

/-- The inline-answer split leaves a star-free option text intact. -/
theorem splitStarMarkerFirst_id {s : Str} (hstar : '*' ∉ s) :
    splitStarMarkerFirst s = s := by
  induction s with
  | nil => rfl
  | cons c rest ih =>
    have hrest : '*' ∉ rest := fun h => hstar (List.mem_cons_of_mem c h)
    simp only [splitStarMarkerFirst, starMarkerAt_false hstar,
      Bool.false_eq_true, if_false, ih hrest]

theorem containsSub_star_mem {s : Str} (h : containsSub "**Answer".toList s = true) :
    '*' ∈ s := by
  induction s with
  | nil => simp [containsSub, List.isEmpty] at h
  | cons c rest ih =>
    simp only [containsSub] at h
    rcases Bool.or_eq_true_iff.mp h with h1 | h2
    · have : c = '*' := by
        by_contra hne
        simp only [containsSub.isLitAt] at h1
        rw [Bool.and_eq_true] at h1
        exact hne (beq_iff_eq.mp h1.1).symm
      exact this ▸ List.mem_cons_self c rest
    · exact List.mem_cons_of_mem c (ih h2)

theorem searchBoldAnswer_star_mem {s : Str} (h : searchBoldAnswer s = true) :
    '*' ∈ s := by
  induction s with
  | nil => simp [searchBoldAnswer] at h
  | cons c rest ih =>
    simp only [searchBoldAnswer] at h
    rcases Bool.or_eq_true_iff.mp h with h1 | h2
    · unfold boldAnswerAt at h1
      split at h1
      · rename_i heq
        rw [(List.cons.inj heq).1]
        exact List.mem_cons_self _ _
      · simp at h1
    · exact List.mem_cons_of_mem c (ih h2)

/-- A line without asterisks never triggers the combined
option-and-answer break. -/
theorem hasInlineAnswer_false {s : Str} (hstar : '*' ∉ s) :
    hasInlineAnswer s = false := by
  unfold hasInlineAnswer
  cases h1 : containsSub "**Answer".toList s with
  | true => exact absurd (containsSub_star_mem h1) hstar
  | false =>
    cases h2 : searchBoldAnswer s with
    | true => exact absurd (searchBoldAnswer_star_mem h2) hstar
    | false => rfl

/-- Question-loop step: an option-looking line ends the question text
and stays in place. -/
theorem questionLoop_cons_option (l : Str) (ls : List Str)
    (h1 : isOptionsHeader (pyStrip l) = false)
    (h2 : (startsOptDot (pyStrip l) || startsBoldOptDot (pyStrip l) ||
      startsOptEq (pyStrip l)) = true) :
    questionLoop (l :: ls) = ([], l :: ls) := by
  simp only [questionLoop, h1, h2]
  simp

/-- Question-loop step: an ordinary non-empty line is accumulated. -/
theorem questionLoop_cons_text (l : Str) (ls : List Str)
    (h1 : isOptionsHeader (pyStrip l) = false)
    (h2 : (startsOptDot (pyStrip l) || startsBoldOptDot (pyStrip l) ||
      startsOptEq (pyStrip l)) = false)
    (h3 : (pyStrip l).isEmpty = false) :
    questionLoop (l :: ls) =
      (pyStrip l :: (questionLoop ls).1, (questionLoop ls).2) := by
  simp only [questionLoop, h1, h2, h3]
  simp

/-- Options-loop step: a plain `A.` option line with no inline answer
appends its cleaned capture and continues. -/
theorem optionsLoop_cons_dot (opts : List Str) (l : Str) (ls : List Str)
    (c : Char) (cap : Str)
    (h1 : isAnswerOrSolutionMarker (pyStrip l) = false)
    (h2 : optMatchBold (pyStrip l) = none)
    (h3 : optMatchDot (pyStrip l) = some (c, cap))
    (h4 : hasInlineAnswer (pyStrip l) = false) :
    optionsLoop opts (l :: ls) =
      optionsLoop (opts ++ [cleanOptionCapture cap]) ls := by
  simp only [optionsLoop, h1, h2, h3, h4]
  simp

/-- Options-loop step: an equals-notation option line with no inline
answer appends `"<letter> = <cleaned capture>"` and continues. -/
theorem optionsLoop_cons_eq (opts : List Str) (l : Str) (ls : List Str)
    (c : Char) (cap : Str)
    (h1 : isAnswerOrSolutionMarker (pyStrip l) = false)
    (h2 : optMatchBold (pyStrip l) = none)
    (h3 : optMatchDot (pyStrip l) = none)
    (h4 : optMatchEq (pyStrip l) = some (c, cap))
    (h5 : hasInlineAnswer (pyStrip l) = false) :
    optionsLoop opts (l :: ls) =
      optionsLoop (opts ++ [c :: ' ' :: '=' :: ' ' :: cleanOptionCapture cap])
        ls := by
  simp only [optionsLoop, h1, h2, h3, h4, h5]
  simp

/-- The options list of a record, in terms of the loop pipeline. -/
theorem parse_options_eq (c : Str) :
    (parse_single_question c).options =
      (optionsLoop []
        (questionLoop (splitOnNl (stripNumberMarker c))).2).1 := rfl

/-- A newline-free string is a single line. -/
theorem splitOnNl_no_nl {s : Str} (h : '\n' ∉ s) : splitOnNl s = [s] := by
  induction s with
  | nil => rfl
  | cons c rest ih =>
    have hc : c ≠ '\n' := fun hcc => h (hcc ▸ List.mem_cons_self c rest)
    have hrest : '\n' ∉ rest := fun hm => h (List.mem_cons_of_mem c hm)
    simp only [splitOnNl, if_neg hc, ih hrest]

theorem splitOnNl_cons_ne (c : Char) (s : Str) (hc : c ≠ '\n') :
    splitOnNl (c :: s) =
      (match splitOnNl s with
       | [] => [[c]]
       | l :: ls => (c :: l) :: ls) := by
  simp only [splitOnNl, if_neg hc]

theorem splitOnNl_cons_nl (s : Str) :
    splitOnNl ('\n' :: s) = [] :: splitOnNl s := by
  simp [splitOnNl]

/-- C10: an option written in equals-sign notation is stored with its
letter prefix and equals sign (`"A = <text>"`), while the same text in
dot notation is stored bare; the two renderings of one block therefore
yield different option lists.  The hypotheses say the option text is a
single clean token: non-empty, already stripped, and free of the
markdown/image/newline characters the cleaning pass reacts to. -/
theorem c10_equals_keeps_letter_dot_strips (t : Str)
    (hne : t ≠ []) (hstrip : pyStrip t = t) (hstar : '*' ∉ t)
    (hbr : '[' ∉ t) (hbang : '!' ∉ t) (hnl : '\n' ∉ t) :
    (parse_single_question ("1. Agree?\nA = ".toList ++ t)).options =
        ['A' :: ' ' :: '=' :: ' ' :: t] ∧
      (parse_single_question ("1. Agree?\nA. ".toList ++ t)).options = [t] ∧
      ('A' :: ' ' :: '=' :: ' ' :: t : Str) ≠ t := by
  have h0 : t.dropWhile isPySpace = t := strip_eq_self_dropWhile hstrip
  have hcap : t.takeWhile (fun c => decide (c ≠ '\n')) = t :=
    takeWhile_eq_self_of_all t (fun a ha => by
      simp only [decide_eq_true_eq]
      exact fun hh => hnl (hh ▸ ha))
  have hemp : t.isEmpty = false := by
    cases t with
    | nil => exact absurd rfl hne
    | cons a b => rfl
  have hclean : cleanOptionCapture t = t := by
    unfold cleanOptionCapture
    rw [splitStarMarkerFirst_id hstar, process_base64_images_id hbang,
      remove_markdown_formatting_id hstar hbr, hstrip]
  have hspc : spCapture (' ' :: t) = some t := by
    unfold spCapture
    simp only [List.dropWhile_cons_of_pos (p := isPySpace)
      (show isPySpace ' ' = true from by decide), h0, hcap, hemp]
    simp
  have hnlD : '\n' ∉ ('A' :: '.' :: ' ' :: t) := by
    intro h
    simp only [List.mem_cons] at h
    rcases h with h | h | h | h
    · exact absurd h (by decide)
    · exact absurd h (by decide)
    · exact absurd h (by decide)
    · exact hnl h
  have hstarD : '*' ∉ ('A' :: '.' :: ' ' :: t) := by
    intro h
    simp only [List.mem_cons] at h
    rcases h with h | h | h | h
    · exact absurd h (by decide)
    · exact absurd h (by decide)
    · exact absurd h (by decide)
    · exact hstar h
  have hsD : pyStrip ('A' :: '.' :: ' ' :: t) = 'A' :: '.' :: ' ' :: t :=
    pyStrip_concat (x := 'A') (X := ['.', ' ']) (by decide) hne hstrip
  have hstripnumD : stripNumberMarker ("1. Agree?\nA. ".toList ++ t) =
      "Agree?\nA. ".toList ++ t := rfl
  have hsplitD : splitOnNl ("Agree?\nA. ".toList ++ t) =
      ["Agree?".toList, 'A' :: '.' :: ' ' :: t] := by
    have h1 : splitOnNl ('A' :: '.' :: ' ' :: t) =
        ['A' :: '.' :: ' ' :: t] := splitOnNl_no_nl hnlD
    show splitOnNl ('A' :: 'g' :: 'r' :: 'e' :: 'e' :: '?' :: '\n' ::
      ('A' :: '.' :: ' ' :: t)) = _
    rw [splitOnNl_cons_ne 'A' _ (by decide), splitOnNl_cons_ne 'g' _ (by decide),
      splitOnNl_cons_ne 'r' _ (by decide), splitOnNl_cons_ne 'e' _ (by decide),
      splitOnNl_cons_ne 'e' _ (by decide), splitOnNl_cons_ne '?' _ (by decide),
      splitOnNl_cons_nl, h1]
    rfl
  have hqlD : questionLoop ["Agree?".toList, 'A' :: '.' :: ' ' :: t] =
      (["Agree?".toList], ['A' :: '.' :: ' ' :: t]) := by
    rw [questionLoop_cons_text "Agree?".toList _ (by decide) (by decide)
      (by decide)]
    rw [questionLoop_cons_option ('A' :: '.' :: ' ' :: t) []
      (by rw [hsD]; rfl) (by rw [hsD]; rfl)]
    rfl
  have holD : optionsLoop [] ['A' :: '.' :: ' ' :: t] = ([t], []) := by
    rw [optionsLoop_cons_dot [] _ [] 'A' t (by rw [hsD]; rfl)
      (by rw [hsD]; rfl)
      (by rw [hsD]
          show optMatchDot ('A' :: '.' :: (' ' :: t)) = some ('A', t)
          simp only [optMatchDot]
          rw [if_pos (by decide), hspc]
          rfl)
      (by rw [hsD]; exact hasInlineAnswer_false hstarD)]
    simp only [optionsLoop, List.nil_append, hclean]
  have hnlE : '\n' ∉ ('A' :: ' ' :: '=' :: ' ' :: t) := by
    intro h
    simp only [List.mem_cons] at h
    rcases h with h | h | h | h | h
    · exact absurd h (by decide)
    · exact absurd h (by decide)
    · exact absurd h (by decide)
    · exact absurd h (by decide)
    · exact hnl h
  have hstarE : '*' ∉ ('A' :: ' ' :: '=' :: ' ' :: t) := by
    intro h
    simp only [List.mem_cons] at h
    rcases h with h | h | h | h | h
    · exact absurd h (by decide)
    · exact absurd h (by decide)
    · exact absurd h (by decide)
    · exact absurd h (by decide)
    · exact hstar h
  have hsE : pyStrip ('A' :: ' ' :: '=' :: ' ' :: t) =
      'A' :: ' ' :: '=' :: ' ' :: t :=
    pyStrip_concat (x := 'A') (X := [' ', '=', ' ']) (by decide) hne hstrip
  have hstripnumE : stripNumberMarker ("1. Agree?\nA = ".toList ++ t) =
      "Agree?\nA = ".toList ++ t := rfl
  have hsplitE : splitOnNl ("Agree?\nA = ".toList ++ t) =
      ["Agree?".toList, 'A' :: ' ' :: '=' :: ' ' :: t] := by
    have h1 : splitOnNl ('A' :: ' ' :: '=' :: ' ' :: t) =
        ['A' :: ' ' :: '=' :: ' ' :: t] := splitOnNl_no_nl hnlE
    show splitOnNl ('A' :: 'g' :: 'r' :: 'e' :: 'e' :: '?' :: '\n' ::
      ('A' :: ' ' :: '=' :: ' ' :: t)) = _
    rw [splitOnNl_cons_ne 'A' _ (by decide), splitOnNl_cons_ne 'g' _ (by decide),
      splitOnNl_cons_ne 'r' _ (by decide), splitOnNl_cons_ne 'e' _ (by decide),
      splitOnNl_cons_ne 'e' _ (by decide), splitOnNl_cons_ne '?' _ (by decide),
      splitOnNl_cons_nl, h1]
    rfl
  have hqlE : questionLoop ["Agree?".toList, 'A' :: ' ' :: '=' :: ' ' :: t] =
      (["Agree?".toList], ['A' :: ' ' :: '=' :: ' ' :: t]) := by
    rw [questionLoop_cons_text "Agree?".toList _ (by decide) (by decide)
      (by decide)]
    rw [questionLoop_cons_option ('A' :: ' ' :: '=' :: ' ' :: t) []
      (by rw [hsE]; rfl) (by rw [hsE]; rfl)]
    rfl
  have holE : optionsLoop [] ['A' :: ' ' :: '=' :: ' ' :: t] =
      (['A' :: ' ' :: '=' :: ' ' :: t], []) := by
    rw [optionsLoop_cons_eq [] _ [] 'A' t (by rw [hsE]; rfl)
      (by rw [hsE]; rfl) (by rw [hsE]; rfl)
      (by rw [hsE]
          show (spCapture (' ' :: t)).map (fun cap => ('A', cap)) =
            some ('A', t)
          rw [hspc]
          rfl)
      (by rw [hsE]; exact hasInlineAnswer_false hstarE)]
    simp only [optionsLoop, List.nil_append, hclean]
  refine ⟨?_, ?_, ?_⟩
  · rw [parse_options_eq, hstripnumE, hsplitE, hqlE, holE]
  · rw [parse_options_eq, hstripnumD, hsplitD, hqlD, holD]
  · intro h
    have := congrArg List.length h
    simp only [List.length_cons] at this
    omega

/-- C10 witness: the spec's §8 example texts `Yes`/`No` — with
`t = "Yes"`, equals notation stores `"A = Yes"` while dot notation
stores `"Yes"`. -/
theorem c10_equals_keeps_letter_dot_strips_witness :
    ("Yes".toList ≠ [] ∧ pyStrip "Yes".toList = "Yes".toList ∧
        '*' ∉ "Yes".toList ∧ '[' ∉ "Yes".toList ∧ '!' ∉ "Yes".toList ∧
        '\n' ∉ "Yes".toList) ∧
      (parse_single_question "1. Agree?\nA = Yes".toList).options =
        ["A = Yes".toList] ∧
      (parse_single_question "1. Agree?\nA. Yes".toList).options =
        ["Yes".toList] ∧
      ("A = Yes".toList : Str) ≠ "Yes".toList :=
  ⟨⟨by decide, by decide, by decide, by decide, by decide, by decide⟩,
    (c10_equals_keeps_letter_dot_strips "Yes".toList (by decide) (by decide)
      (by decide) (by decide) (by decide) (by decide)).1,
    (c10_equals_keeps_letter_dot_strips "Yes".toList (by decide) (by decide)
      (by decide) (by decide) (by decide) (by decide)).2.1,
    (c10_equals_keeps_letter_dot_strips "Yes".toList (by decide) (by decide)
      (by decide) (by decide) (by decide) (by decide)).2.2⟩
